import Mathlib

set_option autoImplicit false

namespace DLV2

/-!
Shallow embedding of the tutorial notebooks
`intro-to-pytorch/Part 3 - Training Neural Networks` and
`intro-to-pytorch/Part 5 - Inference and Validation (Exercises)` /
`Part 6 - Saving and Loading Models`.

Machine floats are modelled by `ℚ` (and by `ℝ` where the code uses the
transcendental functions `exp` / `log`); integer class labels by `Nat`.
A 1-D tensor is a `List`, a 2-D tensor a `List` of rows.
-/

/-! # Definitions -/

/-! ## Per-batch accuracy (Part 5, cells with `topk` / `equals` / `accuracy`)

`top_p, top_class = ps.topk(1, dim=1)` returns, for each row of `ps`, the
largest entry and its index (`torch.topk` on CPU returns the first index
attaining the maximum).  `idxOfMax` is that index for one row. -/

def idxOfMaxAux : List ℚ → Nat → Nat → ℚ → Nat
  | [], _, bi, _ => bi
  | x :: xs, i, bi, bv =>
      if bv < x then idxOfMaxAux xs (i + 1) i x else idxOfMaxAux xs (i + 1) bi bv

def idxOfMax : List ℚ → Nat
  | [] => 0
  | x :: xs => idxOfMaxAux xs 1 0 x

/-- The index component of `ps.topk(1, dim=1)`: a `batch × 1` column of
top-1 class indices. -/
def topClass (ps : List (List ℚ)) : List (List Nat) :=
  ps.map (fun row => [idxOfMax row])

/-- `labels.view(*top_class.shape)`: the label vector reshaped to a
`batch × 1` column (values unchanged). -/
def labelsView (labels : List Nat) : List (List Nat) :=
  labels.map (fun l => [l])

/-- `equals = top_class == labels.view(*top_class.shape)`: `==` on two
tensors of identical shape compares elementwise. -/
def equalsMat (ps : List (List ℚ)) (labels : List Nat) : List (List Bool) :=
  List.zipWith (fun r1 r2 => List.zipWith (fun a b => a == b) r1 r2)
    (topClass ps) (labelsView labels)

def boolToQ (b : Bool) : ℚ := if b then 1 else 0

/-- `torch.mean` of a tensor: sum of all entries over the number of entries. -/
def meanQ (l : List ℚ) : ℚ := l.sum / l.length

/-- `accuracy = torch.mean(equals.type(torch.FloatTensor))` for one batch. -/
def batchAccuracy (ps : List (List ℚ)) (labels : List Nat) : ℚ :=
  meanQ ((equalsMat ps labels).flatten.map boolToQ)

/-- Specification-side count: number of examples in the batch whose top-1
predicted class equals their true label. -/
def numCorrect (ps : List (List ℚ)) (labels : List Nat) : Nat :=
  (List.zipWith (fun row l => idxOfMax row == l) ps labels).count true

/-! ## The per-epoch validation accuracy report (Part 5, training loop cell) -/

/-- One test-loader batch: the model's class-probability rows and the labels. -/
structure VBatch where
  ps : List (List ℚ)
  labels : List Nat

/-- `accuracy += torch.mean(equals.type(torch.FloatTensor))` accumulated over
the test loader, starting from `accuracy = 0`. -/
def accuracySum (bs : List VBatch) : ℚ :=
  bs.foldl (fun acc b => acc + batchAccuracy b.ps b.labels) 0

/-- `accuracy/len(testloader)`: the test accuracy printed after each epoch. -/
def reportedAccuracy (bs : List VBatch) : ℚ :=
  accuracySum bs / bs.length

/-- Specification-side quantity: the fraction of all examples of the test set
whose top-1 prediction matches their label. -/
def datasetAccuracy (bs : List VBatch) : ℚ :=
  (bs.map (fun b => (numCorrect b.ps b.labels : ℚ))).sum /
    (bs.map (fun b => (b.ps.length : ℚ))).sum

/-- Concrete test set for the C4 counterexample: batch size 2, three examples,
so the final batch holds a single example.  The first two predictions are
correct, the third is wrong. -/
def raggedTestSet : List VBatch :=
  [⟨[[1, 0], [1, 0]], [0, 0]⟩, ⟨[[1, 0]], [1]⟩]

/-- Test set of two single-example batches, used as the C4 witness input. -/
def evenTestSet : List VBatch :=
  [⟨[[1, 0]], [0]⟩, ⟨[[0, 1]], [0]⟩]

/-! ## The training loop (Part 3, final exercise cell; Part 5, training cell)

The framework facilities are oracles passed as parameters: `forward` is the
model applied to a flattened image batch, `criterion` the loss function, and
`gradOf θ b` the gradient of the loss on batch `b` at parameters `θ`, as
produced by autograd.  The loop structure — `optimizer.zero_grad()`, forward
pass, loss, `loss.backward()` (autograd *accumulates* into `.grad`),
`optimizer.step()` (SGD: `p ← p - lr * g`), `running_loss += loss.item()` —
is embedded from the source. -/

/-- One training batch: an image batch (rows already flattened by
`images.view(images.shape[0], -1)`) and its labels. -/
structure TrainBatch where
  images : List (List ℚ)
  labels : List Nat

/-- Mutable state of the training loop: the flattened parameter vector of the
model, the accumulated `.grad` buffers, and `running_loss`. -/
structure TrainState where
  params : List ℚ
  grads : List ℚ
  running_loss : ℚ

/-- `optimizer.zero_grad()`: reset every accumulated gradient to zero. -/
def zeroGrad (s : TrainState) : TrainState :=
  { s with grads := s.params.map (fun _ => 0) }

/-- `loss.backward()`: autograd adds the gradient of this batch's loss into
the `.grad` buffers. -/
def backward (gradOf : List ℚ → TrainBatch → List ℚ) (s : TrainState)
    (b : TrainBatch) : TrainState :=
  { s with grads := List.zipWith (fun g dg => g + dg) s.grads (gradOf s.params b) }

/-- `optimizer.step()` for `optim.SGD`: `p ← p - lr * p.grad`. -/
def optStep (lr : ℚ) (s : TrainState) : TrainState :=
  { s with params := List.zipWith (fun p g => p - lr * g) s.params s.grads }

/-- The body of `for images, labels in trainloader:` — zero the gradients,
forward pass, loss, backward pass, optimizer step, accumulate the loss. -/
def trainBatchStep (forward : List ℚ → List (List ℚ) → List (List ℚ))
    (criterion : List (List ℚ) → List Nat → ℚ)
    (gradOf : List ℚ → TrainBatch → List ℚ) (lr : ℚ)
    (s : TrainState) (b : TrainBatch) : TrainState :=
  let s1 := zeroGrad s
  let output := forward s1.params b.images
  let loss := criterion output b.labels
  let s2 := backward gradOf s1 b
  let s3 := optStep lr s2
  { s3 with running_loss := s3.running_loss + loss }

/-- One epoch: `running_loss = 0`, then the loop over the train loader. -/
def trainEpoch (forward : List ℚ → List (List ℚ) → List (List ℚ))
    (criterion : List (List ℚ) → List Nat → ℚ)
    (gradOf : List ℚ → TrainBatch → List ℚ) (lr : ℚ)
    (s : TrainState) (bs : List TrainBatch) : TrainState :=
  bs.foldl (trainBatchStep forward criterion gradOf lr) { s with running_loss := 0 }

/-- `running_loss/len(trainloader)`: the training loss printed after the
epoch. -/
def printedTrainingLoss (forward : List ℚ → List (List ℚ) → List (List ℚ))
    (criterion : List (List ℚ) → List Nat → ℚ)
    (gradOf : List ℚ → TrainBatch → List ℚ) (lr : ℚ)
    (s : TrainState) (bs : List TrainBatch) : ℚ :=
  (trainEpoch forward criterion gradOf lr s bs).running_loss / bs.length

/-- Specification-side SGD recurrence: each batch updates the parameters with
exactly that batch's gradient taken at the pre-batch parameters. -/
def sgdParams (gradOf : List ℚ → TrainBatch → List ℚ) (lr : ℚ) :
    List ℚ → List TrainBatch → List ℚ
  | θ, [] => θ
  | θ, b :: bs =>
      sgdParams gradOf lr (List.zipWith (fun p g => p - lr * g) θ (gradOf θ b)) bs

/-- Specification-side list of per-batch loss values along the trajectory. -/
def epochLosses (forward : List ℚ → List (List ℚ) → List (List ℚ))
    (criterion : List (List ℚ) → List Nat → ℚ)
    (gradOf : List ℚ → TrainBatch → List ℚ) (lr : ℚ) :
    List ℚ → List TrainBatch → List ℚ
  | _, [] => []
  | θ, b :: bs =>
      criterion (forward θ b.images) b.labels ::
        epochLosses forward criterion gradOf lr
          (List.zipWith (fun p g => p - lr * g) θ (gradOf θ b)) bs

/-! ## The validation pass (Part 5, training cell, `with torch.no_grad():`)

The loop accumulates `test_loss` and `accuracy`; it contains no optimizer
step and no parameter write, so the model parameters are threaded through
unchanged. -/

/-- Mutable state of the validation pass. -/
structure ValState where
  modelParams : List ℚ
  test_loss : ℚ
  accuracy : ℚ

/-- Body of `for images, labels in testloader:` under `torch.no_grad()`:
`log_ps = model.forward(images)`, `test_loss += criterion(log_ps, labels)`,
`ps = torch.exp(log_ps)`, then the `topk`/`equals`/mean accuracy update. -/
def validStep (forward : List ℚ → List (List ℚ) → List (List ℚ))
    (criterion : List (List ℚ) → List Nat → ℚ) (expQ : ℚ → ℚ)
    (s : ValState) (b : TrainBatch) : ValState :=
  let log_ps := forward s.modelParams b.images
  let tl := criterion log_ps b.labels
  let ps := log_ps.map (fun row => row.map expQ)
  { s with
    test_loss := s.test_loss + tl,
    accuracy := s.accuracy + batchAccuracy ps b.labels }

/-- The validation loop over the whole test loader. -/
def validLoop (forward : List ℚ → List (List ℚ) → List (List ℚ))
    (criterion : List (List ℚ) → List Nat → ℚ) (expQ : ℚ → ℚ)
    (s : ValState) (bs : List TrainBatch) : ValState :=
  bs.foldl (validStep forward criterion expQ) s

/-! ## Losses and log-softmax over ℝ (Part 3, `nn.CrossEntropyLoss` vs
`nn.NLLLoss` + `nn.LogSoftmax(dim=1)`; Part 5, `Classifier.forward`)

The pieces below use the transcendental `exp`/`log`, so they are embedded
over `ℝ`. -/

/-- `F.log_softmax(z, dim=1)` on one row:
`log_softmax(z)ᵢ = zᵢ - log (Σⱼ exp zⱼ)`. -/
noncomputable def logSoftmaxRow (z : List ℝ) : List ℝ :=
  z.map (fun a => a - Real.log ((z.map Real.exp).sum))

/-- `nn.CrossEntropyLoss` on one example, per its documented formula
`loss(z, y) = -z[y] + log (Σⱼ exp z[j])` applied to raw logits. -/
noncomputable def crossEntropyRow (z : List ℝ) (y : Nat) : ℝ :=
  -(z.getD y 0) + Real.log ((z.map Real.exp).sum)

/-- `nn.NLLLoss` on one example: `loss(p, y) = -p[y]`. -/
def nllRow (p : List ℝ) (y : Nat) : ℝ := -(p.getD y 0)

/-- `nn.CrossEntropyLoss` on a batch (default reduction: mean). -/
noncomputable def crossEntropyLoss (zs : List (List ℝ)) (ys : List Nat) : ℝ :=
  (List.zipWith crossEntropyRow zs ys).sum / zs.length

/-- `nn.NLLLoss` on a batch (default reduction: mean). -/
noncomputable def nllLoss (ps : List (List ℝ)) (ys : List Nat) : ℝ :=
  (List.zipWith nllRow ps ys).sum / ps.length

/-! ## The Part 5 `Classifier` (cell defining `fc1 … fc4`) -/

/-- An `nn.Linear` layer over `ℝ`: weight matrix rows and bias vector. -/
structure LinearR where
  weight : List (List ℝ)
  bias : List ℝ

/-- Applying `nn.Linear` to one input vector: each output entry is the dot
product of a weight row with the input, plus the bias entry. -/
noncomputable def applyLinearR (l : LinearR) (v : List ℝ) : List ℝ :=
  List.zipWith (fun row b => (List.zipWith (fun w x => w * x) row v).sum + b)
    l.weight l.bias

/-- `F.relu`. -/
noncomputable def reluR (x : ℝ) : ℝ := max x 0

/-- The Part 5 classifier: `fc1 : 784→256`, `fc2 : 256→128`, `fc3 : 128→64`,
`fc4 : 64→10`. -/
structure Classifier where
  fc1 : LinearR
  fc2 : LinearR
  fc3 : LinearR
  fc4 : LinearR

/-- The weight matrix has `outf` rows of length `inf`; the bias has length
`outf` — the shape `nn.Linear(inf, outf)` fixes at construction. -/
def LinearR.hasShape (l : LinearR) (inf outf : Nat) : Prop :=
  l.weight.length = outf ∧ (∀ r ∈ l.weight, r.length = inf) ∧
    l.bias.length = outf

/-- Layer shapes of a classifier built as in the source. -/
def Classifier.wf (c : Classifier) : Prop :=
  c.fc1.hasShape 784 256 ∧ c.fc2.hasShape 256 128 ∧
    c.fc3.hasShape 128 64 ∧ c.fc4.hasShape 64 10

/-- The logits of one flattened example:
`x = F.relu(self.fc1(x))`, `x = F.relu(self.fc2(x))`,
`x = F.relu(self.fc3(x))`, then `self.fc4(x)`. -/
noncomputable def classifierLogits (c : Classifier) (v : List ℝ) : List ℝ :=
  applyLinearR c.fc4
    ((applyLinearR c.fc3
      ((applyLinearR c.fc2
        ((applyLinearR c.fc1 v).map reluR)).map reluR)).map reluR)

/-- `Classifier.forward`: `x = x.view(x.shape[0], -1)` flattens each example,
then the three `relu` layers and `F.log_softmax(self.fc4(x), dim=1)`. -/
noncomputable def Classifier.forward (c : Classifier)
    (x : List (List (List ℝ))) : List (List ℝ) :=
  (x.map List.flatten).map (fun v => logSoftmaxRow (classifierLogits c v))

/-- A linear layer of the given shape with all parameters zero (stands in for
an arbitrary initialisation in witnesses). -/
noncomputable def zeroLinearR (inf outf : Nat) : LinearR :=
  ⟨List.replicate outf (List.replicate inf 0), List.replicate outf 0⟩

/-- A concrete classifier with the source's layer sizes. -/
noncomputable def zeroClassifier : Classifier :=
  ⟨zeroLinearR 784 256, zeroLinearR 256 128, zeroLinearR 128 64,
    zeroLinearR 64 10⟩

/-! ## `fc_model.Network`, `state_dict` and checkpointing (Part 6)

`fc_model.py` itself is not among the source files — only its callers and
the checkpoint cells are — so the network class is modelled from the spec.
The checkpoint dictionary and `load_checkpoint` are embedded from the
source cells. -/

/-- An `nn.Linear` layer over `ℚ`: the construction-time sizes and the
parameter tensors (`weight : out_features × in_features`,
`bias : out_features`). -/
structure Linear where
  in_features : Nat
  out_features : Nat
  weight : List (List ℚ)
  bias : List ℚ
deriving DecidableEq

/-- `nn.Linear(inf, outf)`.  Parameters are initialised to zero here
(PyTorch randomises them; every use below overwrites them through
`load_state_dict`, so the initial values are irrelevant). -/
def mkLinear (inf outf : Nat) : Linear :=
  ⟨inf, outf, List.replicate outf (List.replicate inf 0), List.replicate outf 0⟩

/-- Modelled from the spec: `fc_model.Network(input_size, output_size,
hidden_layers)` is a fully-connected network whose architecture is the input
size, the output size and the hidden-layer sizes; `model.hidden_layers` is
the list of hidden `nn.Linear` modules (the checkpoint cell reads
`each.out_features` from them) and `model.output` the output layer. -/
structure Network where
  input_size : Nat
  output_size : Nat
  hidden_layers : List Linear
  output : Linear
deriving DecidableEq

/-- The chain of hidden layers: `input → hs[0] → hs[1] → …`. -/
def mkHiddenLayers : Nat → List Nat → List Linear
  | _, [] => []
  | i, h :: t => mkLinear i h :: mkHiddenLayers h t

/-- Modelled from the spec: building `fc_model.Network(i, o, hs)` — the
first hidden layer maps `i → hs[0]`, each later one `hs[k] → hs[k+1]`, and
the output layer maps the last hidden size to `o`. -/
def Network.build (i o : Nat) (hs : List Nat) : Network :=
  ⟨i, o, mkHiddenLayers i hs, mkLinear (hs.getLastD i) o⟩

/-- The state-dict keys `hidden_layers.{k}.weight`, `hidden_layers.{k}.bias`,
`output.weight` and `output.bias`, kept as structured values. -/
inductive SKey
  | hiddenWeight (k : Nat)
  | hiddenBias (k : Nat)
  | outputWeight
  | outputBias
deriving DecidableEq

/-- A tensor held in a state dict: 1-D or 2-D. -/
inductive TVal
  | v1 (v : List ℚ)
  | v2 (m : List (List ℚ))
deriving DecidableEq

/-- `tensor.shape` (a 2-D tensor is rectangular, so the length of its first
row is its second dimension). -/
def TVal.shape : TVal → List Nat
  | .v1 v => [v.length]
  | .v2 m => [m.length, (m.headD []).length]

/-- The `hidden_layers.{k}.*` part of `model.state_dict()`, in module
order. -/
def hiddenEntries : Nat → List Linear → List (SKey × TVal)
  | _, [] => []
  | k, l :: rest =>
      (.hiddenWeight k, .v2 l.weight) :: (.hiddenBias k, .v1 l.bias) ::
        hiddenEntries (k + 1) rest

/-- `model.state_dict()`: an ordered key → tensor map of all parameters. -/
def Network.state_dict (m : Network) : List (SKey × TVal) :=
  hiddenEntries 0 m.hidden_layers ++
    [(.outputWeight, .v2 m.output.weight), (.outputBias, .v1 m.output.bias)]

/-- Key lookup in a state dict. -/
def lookupT : List (SKey × TVal) → SKey → Option TVal
  | [], _ => none
  | (k, t) :: rest, key => if k = key then some t else lookupT rest key

/-- Copy the looked-up tensors into a layer (used only after all checks
pass, when both lookups succeed with the right dimensionality). -/
def Linear.loadFrom (l : Linear) (w b : Option TVal) : Linear :=
  { l with
    weight := match w with | some (.v2 mat) => mat | _ => l.weight
    bias := match b with | some (.v1 v) => v | _ => l.bias }

/-- Copy the state dict into the hidden layers, module by module. -/
def loadHiddenLayers (sd : List (SKey × TVal)) : Nat → List Linear → List Linear
  | _, [] => []
  | k, l :: rest =>
      l.loadFrom (lookupT sd (.hiddenWeight k)) (lookupT sd (.hiddenBias k)) ::
        loadHiddenLayers sd (k + 1) rest

/-- Keys the model expects but the state dict lacks. -/
def missingKeys (m : Network) (sd : List (SKey × TVal)) : List SKey :=
  (m.state_dict.map Prod.fst).filter
    (fun k => decide (¬ k ∈ sd.map Prod.fst))

/-- Keys the state dict holds but the model does not expect. -/
def unexpectedKeys (m : Network) (sd : List (SKey × TVal)) : List SKey :=
  (sd.map Prod.fst).filter
    (fun k => decide (¬ k ∈ m.state_dict.map Prod.fst))

/-- Keys whose stored tensor shape differs from the shape of the model's
parameter of the same key. -/
def mismatchedShapes (m : Network) (sd : List (SKey × TVal)) : List SKey :=
  ((m.state_dict).filter (fun kt =>
      match lookupT sd kt.1 with
      | some t => decide (t.shape ≠ kt.2.shape)
      | none => false)).map Prod.fst

/-- `model.load_state_dict(sd)` (strict mode): raises `RuntimeError` when
there are missing keys, unexpected keys or size mismatches; otherwise copies
every stored tensor into the corresponding parameter. -/
def Network.load_state_dict (m : Network) (sd : List (SKey × TVal)) :
    Except String Network :=
  if missingKeys m sd = [] ∧ unexpectedKeys m sd = [] ∧
      mismatchedShapes m sd = [] then
    .ok { m with
      hidden_layers := loadHiddenLayers sd 0 m.hidden_layers,
      output := m.output.loadFrom (lookupT sd .outputWeight)
        (lookupT sd .outputBias) }
  else .error "RuntimeError: Error(s) in loading state_dict for Network"

/-- The checkpoint dictionary of Part 6: the keys `input_size`,
`output_size`, `hidden_layers` and `state_dict`. -/
structure Checkpoint where
  input_size : Nat
  output_size : Nat
  hidden_layers : List Nat
  state_dict : List (SKey × TVal)

/-- The checkpoint cell: `input_size` and `output_size` (written in the
notebook as the literals 784 and 10, the saved model's sizes),
`hidden_layers = [each.out_features for each in model.hidden_layers]` and
`model.state_dict()`. -/
def saveCheckpoint (m : Network) : Checkpoint :=
  ⟨m.input_size, m.output_size,
    m.hidden_layers.map (fun l => l.out_features), m.state_dict⟩

/-- `load_checkpoint`: rebuild `fc_model.Network` from the recorded
architecture metadata and load the recorded state dict into it. -/
def load_checkpoint (c : Checkpoint) : Except String Network :=
  (Network.build c.input_size c.output_size c.hidden_layers).load_state_dict
    c.state_dict

/-- Consistency of a layer's tensors with its construction-time sizes
(always true of layers built by `nn.Linear` and preserved by loading). -/
def Linear.wfb (l : Linear) : Bool :=
  (l.weight.length == l.out_features) &&
    l.weight.all (fun r => r.length == l.in_features) &&
    (l.bias.length == l.out_features) && decide (0 < l.out_features)

/-- The hidden layers compose: the first consumes `i` features and each
consumes what the previous one produced. -/
def chainb : Nat → List Linear → Bool
  | _, [] => true
  | i, l :: rest => (l.in_features == i) && chainb l.out_features rest

/-- A network shaped as `fc_model.Network(input_size, output_size, hs)`
builds it: nonempty positive hidden sizes, composing layers, and an output
layer from the last hidden size to `output_size`. -/
def Network.wfb (m : Network) : Bool :=
  (!m.hidden_layers.isEmpty) && m.hidden_layers.all Linear.wfb &&
    chainb m.input_size m.hidden_layers && m.output.wfb &&
    (m.output.in_features ==
      (m.hidden_layers.map (fun l => l.out_features)).getLastD m.input_size) &&
    (m.output.out_features == m.output_size)

/-! ## The Part 5 classifier with dropout (cell 16)

Its `__init__` registers the modules `hidden_1`, `hidden_2`, `output` and —
note the typo — stores `nn.Dropout(p=0.2)` under the attribute name
`droput`, while `forward` reads `self.dropout`. -/

/-- Applying `nn.Linear` over `ℚ` to one input vector. -/
def applyLinear (l : Linear) (v : List ℚ) : List ℚ :=
  List.zipWith (fun row b => (List.zipWith (fun w x => w * x) row v).sum + b)
    l.weight l.bias

/-- `F.relu` over `ℚ`. -/
def reluQ (x : ℚ) : ℚ := max x 0

/-- A registered submodule of the dropout classifier. -/
inductive PyModule
  | linear (l : Linear)
  | dropoutM (p : ℚ)
deriving DecidableEq

/-- The dropout classifier: the three linear layers registered by
`__init__` (`hidden_1 : 784→256`, `hidden_2 : 256→64`, `output : 64→10`). -/
structure DropClassifier where
  hidden_1 : Linear
  hidden_2 : Linear
  output : Linear

/-- The module registry built by `__init__`, in registration order — the
dropout module is stored under the misspelled name `droput`. -/
def dropModules (c : DropClassifier) : List (String × PyModule) :=
  [("hidden_1", .linear c.hidden_1), ("hidden_2", .linear c.hidden_2),
    ("output", .linear c.output), ("droput", .dropoutM (1 / 5))]

/-- `nn.Module.__getattr__`: the module registered under the name, or
`AttributeError`. -/
def getattrModule (c : DropClassifier) (name : String) :
    Except String PyModule :=
  match (dropModules c).find? (fun p => p.1 = name) with
  | some p => .ok p.2
  | none =>
      .error ("AttributeError: Classifier object has no attribute " ++ name)

/-- `x = x.view(x.shape[0], 784)`: succeeds iff every example has 784
elements. -/
def view784 (x : List (List ℚ)) : Except String (List (List ℚ)) :=
  if x.all (fun r => r.length == 784) then .ok x
  else .error "RuntimeError: invalid shape for view"

/-- Applying a registered module to a batch.  The stochastic mask of
`nn.Dropout` is framework-internal; it is irrelevant here because `forward`
fails before any dropout module is ever obtained. -/
def applyModule (m : PyModule) (x : List (List ℚ)) : List (List ℚ) :=
  match m with
  | .linear l => x.map (fun v => applyLinear l v)
  | .dropoutM _ => x

/-- The `forward` of the dropout classifier, statement by statement; the
final `F.log_softmax(·, dim=1)` is an oracle `logsm` (it is never reached).
Each `self.dropout` is an attribute lookup that must be resolved before the
module can be applied. -/
def dropForward (logsm : List ℚ → List ℚ) (c : DropClassifier)
    (x : List (List ℚ)) : Except String (List (List ℚ)) := do
  let xv ← view784 x
  let h1 := (applyModule (.linear c.hidden_1) xv).map (fun r => r.map reluQ)
  let d1 ← getattrModule c "dropout"
  let x1 := applyModule d1 h1
  let h2 := (applyModule (.linear c.hidden_2) x1).map (fun r => r.map reluQ)
  let d2 ← getattrModule c "dropout"
  let x2 := applyModule d2 h2
  let out := applyModule (.linear c.output) x2
  return out.map logsm

/-- shape agreement used by the load checks -/
def shapesAgree (f g : Linear) : Prop :=
  TVal.shape (.v2 f.weight) = TVal.shape (.v2 g.weight) ∧
    TVal.shape (.v1 f.bias) = TVal.shape (.v1 g.bias)

/-- key and shape agreement of two state-dict entries -/
def entriesAgree (kt1 kt2 : SKey × TVal) : Prop :=
  kt1.1 = kt2.1 ∧ kt1.2.shape = kt2.2.shape

/-! # Lemmas and claim theorems -/

lemma equalsMat_flatten (ps : List (List ℚ)) (labels : List Nat) :
    (equalsMat ps labels).flatten =
      List.zipWith (fun row l => idxOfMax row == l) ps labels := by
  induction ps generalizing labels with
  | nil => simp [equalsMat, topClass, labelsView]
  | cons r rs ih =>
      cases labels with
      | nil => simp [equalsMat, topClass, labelsView]
      | cons l ls =>
          simpa [equalsMat, topClass, labelsView] using ih ls

lemma sum_map_boolToQ (l : List Bool) :
    (l.map boolToQ).sum = (l.count true : ℚ) := by
  induction l with
  | nil => simp
  | cons b bs ih =>
      cases b <;> simp [boolToQ, ih, List.count_cons, add_comm]

lemma equalsMat_flatten_length (ps : List (List ℚ)) (labels : List Nat)
    (h : ps.length = labels.length) :
    (equalsMat ps labels).flatten.length = ps.length := by
  rw [equalsMat_flatten, List.length_zipWith, h, Nat.min_self]

lemma batchAccuracy_correct (ps : List (List ℚ)) (labels : List Nat)
    (h : ps.length = labels.length) :
    batchAccuracy ps labels = (numCorrect ps labels : ℚ) / (ps.length : ℚ) := by
  unfold batchAccuracy meanQ numCorrect
  rw [List.length_map, equalsMat_flatten_length ps labels h, equalsMat_flatten,
    sum_map_boolToQ]

lemma equalsMat_getD (ps : List (List ℚ)) (labels : List Nat) (i : Nat)
    (hi : i < ps.length) (hl : i < labels.length) :
    (equalsMat ps labels).getD i [] =
      [idxOfMax (ps.getD i []) == labels.getD i 0] := by
  induction ps generalizing labels i with
  | nil => simp at hi
  | cons r rs ih =>
      cases labels with
      | nil => simp at hl
      | cons l ls =>
          cases i with
          | zero => simp [equalsMat, topClass, labelsView]
          | succ n =>
              simpa [equalsMat, topClass, labelsView] using
                ih ls n (by simpa using hi) (by simpa using hl)

lemma equalsMat_rows_length (ps : List (List ℚ)) (labels : List Nat) :
    ∀ row ∈ equalsMat ps labels, row.length = 1 := by
  induction ps generalizing labels with
  | nil => simp [equalsMat, topClass, labelsView]
  | cons r rs ih =>
      cases labels with
      | nil => simp [equalsMat, topClass, labelsView]
      | cons l ls =>
          intro row hrow
          simp only [equalsMat, topClass, labelsView, List.map_cons,
            List.zipWith_cons_cons, List.mem_cons] at hrow
          rcases hrow with h1 | h2
          · simp [h1]
          · exact ih ls row (by simpa [equalsMat, topClass, labelsView] using h2)

lemma equalsMat_length (ps : List (List ℚ)) (labels : List Nat)
    (h : ps.length = labels.length) :
    (equalsMat ps labels).length = ps.length := by
  simp [equalsMat, topClass, labelsView, List.length_zipWith, h]

lemma foldl_add_eq {α : Type} (f : α → ℚ) :
    ∀ (bs : List α) (a : ℚ),
      bs.foldl (fun acc b => acc + f b) a = a + (bs.map f).sum
  | [], a => by simp
  | b :: bs, a => by
      rw [List.foldl_cons, foldl_add_eq f bs (a + f b)]
      simp [add_assoc]

lemma accuracySum_eq (bs : List VBatch) :
    accuracySum bs = (bs.map (fun b => batchAccuracy b.ps b.labels)).sum := by
  rw [accuracySum, foldl_add_eq, zero_add]

lemma sum_map_div {α K : Type} [DivisionRing K] (l : List α) (f : α → K) (c : K) :
    (l.map (fun x => f x / c)).sum = (l.map f).sum / c := by
  induction l with
  | nil => simp
  | cons x xs ih => simp [ih, add_div]

/-- C3: for every batch of class-probability rows `ps` and label vector
`labels` (of equal batch size), the value
`torch.mean(equals.type(torch.FloatTensor))` equals the number of examples
whose top-1 predicted class equals their true label, divided by the batch
size. -/
theorem c3_batch_accuracy_is_fraction_correct (ps : List (List ℚ))
    (labels : List Nat) (h : ps.length = labels.length) :
    batchAccuracy ps labels = (numCorrect ps labels : ℚ) / (ps.length : ℚ) :=
  batchAccuracy_correct ps labels h

/-- Witness for C3 at the batch `ps = [[1,0],[0,1]]`, `labels = [0,0]`
(first prediction correct, second wrong). -/
theorem c3_batch_accuracy_is_fraction_correct_witness :
    ([[(1 : ℚ), 0], [0, 1]].length = ([0, 0] : List Nat).length) ∧
      batchAccuracy [[(1 : ℚ), 0], [0, 1]] [0, 0] =
        (numCorrect [[(1 : ℚ), 0], [0, 1]] [0, 0] : ℚ) /
          ([[(1 : ℚ), 0], [0, 1]].length : ℚ) :=
  ⟨rfl, c3_batch_accuracy_is_fraction_correct [[(1 : ℚ), 0], [0, 1]] [0, 0] rfl⟩

/-- C9: because `labels` is reshaped to `top_class`'s shape `(batch, 1)`,
`equals` has shape `(batch, 1)` and its `i`-th entry is true iff the `i`-th
example's top-1 predicted class equals the `i`-th label: the comparison is
elementwise per example, never a cross-comparison. -/
theorem c9_equals_is_elementwise (ps : List (List ℚ)) (labels : List Nat)
    (h : ps.length = labels.length) :
    (equalsMat ps labels).length = ps.length ∧
      (∀ row ∈ equalsMat ps labels, row.length = 1) ∧
      ∀ i, i < ps.length →
        (equalsMat ps labels).getD i [] =
          [idxOfMax (ps.getD i []) == labels.getD i 0] :=
  ⟨equalsMat_length ps labels h, equalsMat_rows_length ps labels,
    fun i hi => equalsMat_getD ps labels i hi (h ▸ hi)⟩

/-- Witness for C9 at `ps = [[0,1]]`, `labels = [1]`. -/
theorem c9_equals_is_elementwise_witness :
    ([[(0 : ℚ), 1]].length = ([1] : List Nat).length) ∧
      ((equalsMat [[(0 : ℚ), 1]] [1]).length = [[(0 : ℚ), 1]].length ∧
        (∀ row ∈ equalsMat [[(0 : ℚ), 1]] [1], row.length = 1) ∧
        ∀ i, i < [[(0 : ℚ), 1]].length →
          (equalsMat [[(0 : ℚ), 1]] [1]).getD i [] =
            [idxOfMax ([[(0 : ℚ), 1]].getD i []) == ([1] : List Nat).getD i 0]) :=
  ⟨rfl, c9_equals_is_elementwise [[(0 : ℚ), 1]] [1] rfl⟩

/-- C4 counterexample: on a three-example test set with batch size 2 (the
final batch holds a single example), the reported accuracy
`accuracy/len(testloader)` is `1/2` while the true fraction of correctly
classified examples is `2/3`, so the claim fails for test sets whose size is
not a multiple of the batch size. -/
theorem c4_counterexample :
    reportedAccuracy raggedTestSet = 1 / 2 ∧
      datasetAccuracy raggedTestSet = 2 / 3 ∧
      reportedAccuracy raggedTestSet ≠ datasetAccuracy raggedTestSet := by
  refine ⟨?_, ?_, ?_⟩ <;>
    norm_num [reportedAccuracy, accuracySum, batchAccuracy, meanQ, equalsMat,
      topClass, labelsView, idxOfMax, idxOfMaxAux, boolToQ, datasetAccuracy,
      numCorrect, List.count_cons, raggedTestSet]

/-- C4 (amended): when every batch of the test loader has the same number of
examples `s` (the test-set size is a multiple of the batch size), the
reported accuracy `accuracy/len(testloader)` equals the fraction of all
examples whose top-1 prediction matches their label. -/
theorem c4_reported_accuracy_equal_batches (bs : List VBatch) (s : Nat)
    (h : ∀ b ∈ bs, b.ps.length = s ∧ b.labels.length = s) :
    reportedAccuracy bs = datasetAccuracy bs := by
  rw [reportedAccuracy, accuracySum_eq, datasetAccuracy]
  have h1 : bs.map (fun b => batchAccuracy b.ps b.labels)
      = bs.map (fun b => (numCorrect b.ps b.labels : ℚ) / (s : ℚ)) := by
    apply List.map_congr_left
    intro b hb
    rcases h b hb with ⟨hp, hl⟩
    rw [batchAccuracy_correct b.ps b.labels (hp.trans hl.symm), hp]
  have h2 : bs.map (fun b => (b.ps.length : ℚ)) = bs.map (fun _ => (s : ℚ)) := by
    apply List.map_congr_left
    intro b hb
    rw [(h b hb).1]
  rw [h1, sum_map_div, h2, List.map_const', List.sum_replicate, div_div,
    nsmul_eq_mul, mul_comm]

/-- Witness for the amended C4 on a test set of two single-example batches. -/
theorem c4_reported_accuracy_equal_batches_witness :
    (∀ b ∈ evenTestSet, b.ps.length = 1 ∧ b.labels.length = 1) ∧
      reportedAccuracy evenTestSet = datasetAccuracy evenTestSet :=
  ⟨by decide, c4_reported_accuracy_equal_batches evenTestSet 1 (by decide)⟩

lemma zipWith_add_replicate_zero (n : Nat) (g : List ℚ) (h : g.length = n) :
    List.zipWith (fun a b => a + b) (List.replicate n (0 : ℚ)) g = g := by
  induction g generalizing n with
  | nil => simp
  | cons y ys ih =>
      cases n with
      | zero => simp at h
      | succ m =>
          rw [List.replicate_succ, List.zipWith_cons_cons, zero_add,
            ih m (by simpa using h)]

lemma trainBatchStep_eq (forward : List ℚ → List (List ℚ) → List (List ℚ))
    (criterion : List (List ℚ) → List Nat → ℚ)
    (gradOf : List ℚ → TrainBatch → List ℚ) (lr : ℚ)
    (s : TrainState) (b : TrainBatch)
    (hg : (gradOf s.params b).length = s.params.length) :
    trainBatchStep forward criterion gradOf lr s b =
      ⟨List.zipWith (fun p g => p - lr * g) s.params (gradOf s.params b),
        gradOf s.params b,
        s.running_loss + criterion (forward s.params b.images) b.labels⟩ := by
  unfold trainBatchStep zeroGrad backward optStep
  simp [zipWith_add_replicate_zero s.params.length (gradOf s.params b) hg]

lemma trainFold_spec (forward : List ℚ → List (List ℚ) → List (List ℚ))
    (criterion : List (List ℚ) → List Nat → ℚ)
    (gradOf : List ℚ → TrainBatch → List ℚ) (lr : ℚ)
    (hg : ∀ θ b, (gradOf θ b).length = θ.length) :
    ∀ (bs : List TrainBatch) (s : TrainState),
      (bs.foldl (trainBatchStep forward criterion gradOf lr) s).params =
          sgdParams gradOf lr s.params bs ∧
        (bs.foldl (trainBatchStep forward criterion gradOf lr) s).running_loss =
          s.running_loss + (epochLosses forward criterion gradOf lr s.params bs).sum
  | [], s => by simp [sgdParams, epochLosses]
  | b :: bs, s => by
      rw [List.foldl_cons,
        trainBatchStep_eq forward criterion gradOf lr s b (hg s.params b)]
      rcases trainFold_spec forward criterion gradOf lr hg bs
          ⟨List.zipWith (fun p g => p - lr * g) s.params (gradOf s.params b),
            gradOf s.params b,
            s.running_loss + criterion (forward s.params b.images) b.labels⟩ with
        ⟨hp, hl⟩
      refine ⟨?_, ?_⟩
      · rw [hp]
        rfl
      · rw [hl]
        simp [epochLosses, add_assoc]

/-- C5: each iteration of the training loop zeroes the gradients, runs the
forward pass, computes the loss, runs the backward pass and takes an
optimizer step, in that order — consequently the parameters follow the SGD
recurrence in which every update uses exactly the current batch's gradient
taken at the pre-batch parameters — and the training loss printed after the
epoch is the sum of the per-batch loss values divided by the number of
batches. -/
theorem c5_training_loop_and_printed_loss
    (forward : List ℚ → List (List ℚ) → List (List ℚ))
    (criterion : List (List ℚ) → List Nat → ℚ)
    (gradOf : List ℚ → TrainBatch → List ℚ) (lr : ℚ)
    (s : TrainState) (bs : List TrainBatch)
    (hg : ∀ θ b, (gradOf θ b).length = θ.length) :
    (trainEpoch forward criterion gradOf lr s bs).params =
        sgdParams gradOf lr s.params bs ∧
      printedTrainingLoss forward criterion gradOf lr s bs =
        (epochLosses forward criterion gradOf lr s.params bs).sum / bs.length := by
  rcases trainFold_spec forward criterion gradOf lr hg bs
      { s with running_loss := 0 } with ⟨hp, hl⟩
  refine ⟨hp, ?_⟩
  rw [printedTrainingLoss, trainEpoch, hl]
  simp

/-- Witness for C5: a one-batch epoch with concrete oracles. -/
theorem c5_training_loop_and_printed_loss_witness :
    (∀ (θ : List ℚ) (b : TrainBatch),
        ((fun (θ : List ℚ) (_ : TrainBatch) => θ.map (fun _ => (1 : ℚ))) θ b).length
          = θ.length) ∧
      ((trainEpoch (fun _ imgs => imgs) (fun out _ => out.flatten.sum)
            (fun θ _ => θ.map (fun _ => (1 : ℚ))) 1 ⟨[2, 3], [5], 7⟩
            [⟨[[4]], [0]⟩]).params =
          sgdParams (fun θ _ => θ.map (fun _ => (1 : ℚ))) 1 ([2, 3] : List ℚ)
            [⟨[[4]], [0]⟩] ∧
        printedTrainingLoss (fun _ imgs => imgs) (fun out _ => out.flatten.sum)
            (fun θ _ => θ.map (fun _ => (1 : ℚ))) 1 ⟨[2, 3], [5], 7⟩
            [⟨[[4]], [0]⟩] =
          (epochLosses (fun _ imgs => imgs) (fun out _ => out.flatten.sum)
              (fun θ _ => θ.map (fun _ => (1 : ℚ))) 1 ([2, 3] : List ℚ)
              [⟨[[4]], [0]⟩]).sum / ([⟨[[4]], [0]⟩] : List TrainBatch).length) :=
  ⟨fun θ b => by simp,
    c5_training_loop_and_printed_loss (fun _ imgs => imgs)
      (fun out _ => out.flatten.sum) (fun θ _ => θ.map (fun _ => (1 : ℚ))) 1
      ⟨[2, 3], [5], 7⟩ [⟨[[4]], [0]⟩] (fun θ b => by simp)⟩

/-- C6: the validation pass leaves the model unchanged — the loop over the
test loader runs under `torch.no_grad()` and contains no optimizer step, so
the model parameters after the loop equal the parameters before it. -/
theorem c6_validation_pass_leaves_model_unchanged
    (forward : List ℚ → List (List ℚ) → List (List ℚ))
    (criterion : List (List ℚ) → List Nat → ℚ) (expQ : ℚ → ℚ)
    (s : ValState) (bs : List TrainBatch) :
    (validLoop forward criterion expQ s bs).modelParams = s.modelParams := by
  induction bs generalizing s with
  | nil => rfl
  | cons b bs ih =>
      exact (ih (validStep forward criterion expQ s b)).trans rfl

lemma crossEntropyRow_eq_nll_logSoftmax (z : List ℝ) (y : Nat)
    (h : y < z.length) :
    crossEntropyRow z y = nllRow (logSoftmaxRow z) y := by
  unfold crossEntropyRow nllRow logSoftmaxRow
  have h2 : y < (z.map (fun a => a - Real.log ((z.map Real.exp).sum))).length := by
    simpa using h
  rw [List.getD_eq_getElem z 0 h, List.getD_eq_getElem _ 0 h2, List.getElem_map]
  ring

lemma sum_exp_pos (z : List ℝ) (hz : z ≠ []) : 0 < (z.map Real.exp).sum := by
  apply List.sum_pos
  · intro a ha
    rcases List.mem_map.1 ha with ⟨b, _, rfl⟩
    exact Real.exp_pos b
  · simpa using hz

lemma sum_exp_logSoftmaxRow (z : List ℝ) (hz : z ≠ []) :
    ((logSoftmaxRow z).map Real.exp).sum = 1 := by
  have hS : 0 < (z.map Real.exp).sum := sum_exp_pos z hz
  unfold logSoftmaxRow
  rw [List.map_map]
  have hc : (Real.exp ∘ fun a => a - Real.log ((z.map Real.exp).sum))
      = fun a => Real.exp a / (z.map Real.exp).sum := by
    funext a
    rw [Function.comp_apply, Real.exp_sub, Real.exp_log hS]
  rw [hc, sum_map_div, div_self (ne_of_gt hS)]

/-- C8: the two loss formulations of the training notebook coincide — on
every logits batch and label vector (labels in range), `nn.CrossEntropyLoss`
applied to the raw logits equals `nn.NLLLoss` applied to the
`log_softmax` (over `dim=1`) of the same logits. -/
theorem c8_cross_entropy_eq_nll_of_log_softmax (zs : List (List ℝ))
    (ys : List Nat)
    (h : List.Forall₂ (fun (z : List ℝ) (y : Nat) => y < z.length) zs ys) :
    crossEntropyLoss zs ys = nllLoss (zs.map logSoftmaxRow) ys := by
  unfold crossEntropyLoss nllLoss
  rw [List.length_map]
  congr 1
  induction h with
  | nil => rfl
  | cons hzy hrest ih =>
      simp only [List.map_cons, List.zipWith_cons_cons]
      rw [List.sum_cons, List.sum_cons, crossEntropyRow_eq_nll_logSoftmax _ _ hzy, ih]

/-- Witness for C8 at logits `[[0,1]]`, labels `[1]`. -/
theorem c8_cross_entropy_eq_nll_of_log_softmax_witness :
    List.Forall₂ (fun (z : List ℝ) (y : Nat) => y < z.length)
        [[(0 : ℝ), 1]] [1] ∧
      crossEntropyLoss [[(0 : ℝ), 1]] [1] =
        nllLoss ([[(0 : ℝ), 1]].map logSoftmaxRow) [1] :=
  ⟨.cons (by simp) .nil,
    c8_cross_entropy_eq_nll_of_log_softmax [[(0 : ℝ), 1]] [1]
      (.cons (by simp) .nil)⟩

lemma classifierLogits_length (c : Classifier) (v : List ℝ)
    (h4 : c.fc4.hasShape 64 10) : (classifierLogits c v).length = 10 := by
  unfold classifierLogits applyLinearR
  rw [List.length_zipWith, h4.1, h4.2.2]
  exact Nat.min_self 10

/-- C10: `Classifier.forward` (which flattens each example and ends in
`F.log_softmax(·, dim=1)`) always returns normalized log-probabilities: one
output row per input example, each of length 10, with the exponentials of
its entries summing to 1 — so `torch.exp` of the output is a probability
distribution over the 10 classes for each example. -/
theorem c10_forward_returns_normalized_log_probabilities (c : Classifier)
    (x : List (List (List ℝ))) (hwf : c.wf) :
    (c.forward x).length = x.length ∧
      ∀ row ∈ c.forward x, row.length = 10 ∧ (row.map Real.exp).sum = 1 := by
  obtain ⟨h1, h2, h3, h4⟩ := hwf
  constructor
  · simp [Classifier.forward]
  · intro row hrow
    simp only [Classifier.forward, List.map_map, List.mem_map,
      Function.comp_apply] at hrow
    obtain ⟨ex, _, rfl⟩ := hrow
    have hzlen : (classifierLogits c ex.flatten).length = 10 :=
      classifierLogits_length c ex.flatten h4
    have hz : classifierLogits c ex.flatten ≠ [] := by
      intro h0
      rw [h0] at hzlen
      simp at hzlen
    constructor
    · unfold logSoftmaxRow
      rw [List.length_map, hzlen]
    · exact sum_exp_logSoftmaxRow _ hz

lemma zeroLinearR_hasShape (inf outf : Nat) :
    (zeroLinearR inf outf).hasShape inf outf := by
  refine ⟨?_, ?_, ?_⟩
  · simp [zeroLinearR]
  · intro r hr
    rw [List.eq_of_mem_replicate hr]
    simp
  · simp [zeroLinearR]

lemma zeroClassifier_wf : zeroClassifier.wf :=
  ⟨zeroLinearR_hasShape 784 256, zeroLinearR_hasShape 256 128,
    zeroLinearR_hasShape 128 64, zeroLinearR_hasShape 64 10⟩

/-- Witness for C10: the zero-initialised classifier on a batch of one
28 × 28 zero image. -/
theorem c10_forward_returns_normalized_log_probabilities_witness :
    zeroClassifier.wf ∧
      ((zeroClassifier.forward [List.replicate 28 (List.replicate 28 0)]).length
          = [List.replicate 28 (List.replicate 28 (0 : ℝ))].length ∧
        ∀ row ∈ zeroClassifier.forward [List.replicate 28 (List.replicate 28 0)],
          row.length = 10 ∧ (row.map Real.exp).sum = 1) :=
  ⟨zeroClassifier_wf,
    c10_forward_returns_normalized_log_probabilities zeroClassifier
      [List.replicate 28 (List.replicate 28 0)] zeroClassifier_wf⟩

/-- C7 (code bug): the classifier-with-dropout cell does register an
`nn.Dropout(p=0.2)` module, but under the misspelled attribute `droput`,
while `forward` reads `self.dropout`; hence on every input batch whose
examples have 784 elements, `forward` raises `AttributeError` instead of
completing. -/
theorem c7_dropout_forward_raises_attribute_error
    (logsm : List ℚ → List ℚ) (c : DropClassifier)
    (x : List (List ℚ)) (h : ∀ r ∈ x, r.length = 784) :
    getattrModule c "droput" = .ok (.dropoutM (1 / 5)) ∧
      dropForward logsm c x =
        .error "AttributeError: Classifier object has no attribute dropout" := by
  constructor
  · rfl
  · unfold dropForward view784
    rw [if_pos (List.all_eq_true.2 (fun r hr => by simp [h r hr]))]
    rfl

/-- Witness for C7 at a batch of one 784-entry zero example. -/
theorem c7_dropout_forward_raises_attribute_error_witness :
    (∀ r ∈ [List.replicate 784 (0 : ℚ)], r.length = 784) ∧
      (getattrModule ⟨mkLinear 784 256, mkLinear 256 64, mkLinear 64 10⟩
          "droput" = .ok (.dropoutM (1 / 5)) ∧
        dropForward id ⟨mkLinear 784 256, mkLinear 256 64, mkLinear 64 10⟩
            [List.replicate 784 (0 : ℚ)] =
          .error "AttributeError: Classifier object has no attribute dropout") :=
  ⟨fun r hr => by rw [List.mem_singleton] at hr; rw [hr]; exact List.length_replicate 784 0,
    c7_dropout_forward_raises_attribute_error id
      ⟨mkLinear 784 256, mkLinear 256 64, mkLinear 64 10⟩
      [List.replicate 784 (0 : ℚ)]
      (fun r hr => by rw [List.mem_singleton] at hr; rw [hr]; exact List.length_replicate 784 0)⟩

lemma mkHiddenLayers_length : ∀ (hs : List Nat) (i : Nat),
    (mkHiddenLayers i hs).length = hs.length
  | [], _ => rfl
  | h :: t, i => by simp [mkHiddenLayers, mkHiddenLayers_length t h]

lemma mkHiddenLayers_out : ∀ (hs : List Nat) (i : Nat),
    (mkHiddenLayers i hs).map (fun l => l.out_features) = hs
  | [], _ => rfl
  | h :: t, i => by simp [mkHiddenLayers, mkLinear, mkHiddenLayers_out t h]

lemma filter_not_mem_self (l : List SKey) :
    l.filter (fun k => decide (¬ k ∈ l)) = [] := by
  rw [List.filter_eq_nil_iff]
  intro a ha
  simp [ha]

lemma lookupT_append_right : ∀ (ls : List Linear) (k : Nat)
    (tail : List (SKey × TVal)) (key : SKey),
    (∀ j : Nat, key ≠ .hiddenWeight j ∧ key ≠ .hiddenBias j) →
    lookupT (hiddenEntries k ls ++ tail) key = lookupT tail key
  | [], _, _, _, _ => rfl
  | l :: rest, k, tail, key, h => by
      simp only [hiddenEntries, List.cons_append, lookupT]
      rw [if_neg (fun e => (h k).1 e.symm), if_neg (fun e => (h k).2 e.symm)]
      exact lookupT_append_right rest (k + 1) tail key h

lemma lookup_hiddenEntries_hw : ∀ (ls : List Linear) (k j : Nat)
    (tail : List (SKey × TVal)) (hj : j < ls.length),
    lookupT (hiddenEntries k ls ++ tail) (.hiddenWeight (k + j)) =
      some (.v2 (ls.get ⟨j, hj⟩).weight)
  | [], _, j, _, hj => by simp at hj
  | l :: rest, k, 0, tail, hj => by
      simp [hiddenEntries, lookupT]
  | l :: rest, k, j + 1, tail, hj => by
      simp only [hiddenEntries, List.cons_append, lookupT]
      rw [if_neg, if_neg]
      · have := lookup_hiddenEntries_hw rest (k + 1) j tail (by simpa using hj)
        rw [show k + 1 + j = k + (j + 1) by omega] at this
        exact this
      · intro e
        cases e
      · intro e
        have : k = k + (j + 1) := by injection e
        omega

lemma lookup_hiddenEntries_hb : ∀ (ls : List Linear) (k j : Nat)
    (tail : List (SKey × TVal)) (hj : j < ls.length),
    lookupT (hiddenEntries k ls ++ tail) (.hiddenBias (k + j)) =
      some (.v1 (ls.get ⟨j, hj⟩).bias)
  | [], _, j, _, hj => by simp at hj
  | l :: rest, k, 0, tail, hj => by
      simp [hiddenEntries, lookupT]
  | l :: rest, k, j + 1, tail, hj => by
      simp only [hiddenEntries, List.cons_append, lookupT]
      rw [if_neg, if_neg]
      · have := lookup_hiddenEntries_hb rest (k + 1) j tail (by simpa using hj)
        rw [show k + 1 + j = k + (j + 1) by omega] at this
        exact this
      · intro e
        have : k = k + (j + 1) := by injection e
        omega
      · intro e
        cases e

lemma lookup_state_dict_hw (m : Network) (j : Nat)
    (hj : j < m.hidden_layers.length) :
    lookupT m.state_dict (.hiddenWeight j) =
      some (.v2 (m.hidden_layers.get ⟨j, hj⟩).weight) := by
  have := lookup_hiddenEntries_hw m.hidden_layers 0 j
    [(.outputWeight, .v2 m.output.weight), (.outputBias, .v1 m.output.bias)] hj
  rw [Nat.zero_add] at this
  exact this

lemma lookup_state_dict_hb (m : Network) (j : Nat)
    (hj : j < m.hidden_layers.length) :
    lookupT m.state_dict (.hiddenBias j) =
      some (.v1 (m.hidden_layers.get ⟨j, hj⟩).bias) := by
  have := lookup_hiddenEntries_hb m.hidden_layers 0 j
    [(.outputWeight, .v2 m.output.weight), (.outputBias, .v1 m.output.bias)] hj
  rw [Nat.zero_add] at this
  exact this

lemma lookup_state_dict_ow (m : Network) :
    lookupT m.state_dict .outputWeight = some (.v2 m.output.weight) := by
  unfold Network.state_dict
  rw [lookupT_append_right m.hidden_layers 0 _ _ (fun j => ⟨fun e => SKey.noConfusion e, fun e => SKey.noConfusion e⟩)]
  rfl

lemma lookup_state_dict_ob (m : Network) :
    lookupT m.state_dict .outputBias = some (.v1 m.output.bias) := by
  unfold Network.state_dict
  rw [lookupT_append_right m.hidden_layers 0 _ _ (fun j => ⟨fun e => SKey.noConfusion e, fun e => SKey.noConfusion e⟩)]
  rfl

lemma loadHiddenLayers_spec (sd : List (SKey × TVal)) :
    ∀ (fresh ms : List Linear) (k : Nat), fresh.length = ms.length →
    (∀ j (hj : j < ms.length), lookupT sd (.hiddenWeight (k + j)) =
      some (.v2 (ms.get ⟨j, hj⟩).weight)) →
    (∀ j (hj : j < ms.length), lookupT sd (.hiddenBias (k + j)) =
      some (.v1 (ms.get ⟨j, hj⟩).bias)) →
    loadHiddenLayers sd k fresh =
      List.zipWith (fun f g => { f with weight := g.weight, bias := g.bias })
        fresh ms
  | [], [], _, _, _, _ => rfl
  | [], _ :: _, _, h, _, _ => by simp at h
  | _ :: _, [], _, h, _, _ => by simp at h
  | f :: fs, g :: gs, k, h, hw, hb => by
      have hw0 := hw 0 (by simp)
      have hb0 := hb 0 (by simp)
      rw [Nat.add_zero] at hw0 hb0
      simp only [loadHiddenLayers, List.zipWith_cons_cons, hw0, hb0,
        Linear.loadFrom]
      rw [loadHiddenLayers_spec sd fs gs (k + 1) (by simpa using h)
        (fun j hj => by
          have := hw (j + 1) (by simpa using hj)
          rw [show k + (j + 1) = k + 1 + j by omega] at this
          exact this)
        (fun j hj => by
          have := hb (j + 1) (by simpa using hj)
          rw [show k + (j + 1) = k + 1 + j by omega] at this
          exact this)]
      rfl

lemma hiddenEntries_copy : ∀ (fresh ms : List Linear) (k : Nat),
    fresh.length = ms.length →
    hiddenEntries k
      (List.zipWith (fun f g => { f with weight := g.weight, bias := g.bias })
        fresh ms) = hiddenEntries k ms
  | [], [], _, _ => rfl
  | [], _ :: _, _, h => by simp at h
  | _ :: _, [], _, h => by simp at h
  | f :: fs, g :: gs, k, h => by
      simp only [List.zipWith_cons_cons, hiddenEntries]
      rw [hiddenEntries_copy fs gs (k + 1) (by simpa using h)]

lemma copy_map_out : ∀ (fresh ms : List Linear), fresh.length = ms.length →
    (List.zipWith (fun f g => { f with weight := g.weight, bias := g.bias })
        fresh ms).map (fun l => l.out_features) =
      fresh.map (fun l => l.out_features)
  | [], [], _ => rfl
  | [], _ :: _, h => by simp at h
  | _ :: _, [], h => by simp at h
  | f :: fs, g :: gs, h => by
      simp only [List.zipWith_cons_cons, List.map_cons]
      rw [copy_map_out fs gs (by simpa using h)]

lemma wfb_spec (l : Linear) (h : l.wfb = true) :
    l.weight.length = l.out_features ∧
      (∀ r ∈ l.weight, r.length = l.in_features) ∧
      l.bias.length = l.out_features ∧ 0 < l.out_features := by
  simpa [Linear.wfb, List.all_eq_true, and_assoc] using h

lemma shape_of_wfb (l : Linear) (h : l.wfb = true) :
    TVal.shape (.v2 l.weight) = [l.out_features, l.in_features] ∧
      TVal.shape (.v1 l.bias) = [l.out_features] := by
  obtain ⟨h1, h2, h3, h4⟩ := wfb_spec l h
  refine ⟨?_, by simp [TVal.shape, h3]⟩
  cases hw : l.weight with
  | nil => rw [hw] at h1; simp at h1; omega
  | cons r rs =>
      rw [hw] at h1 h2
      simp only [TVal.shape, List.headD_cons]
      rw [h1, h2 r (by simp)]

lemma mkLinear_wfb (inf outf : Nat) (h : 0 < outf) :
    (mkLinear inf outf).wfb = true := by
  simp [mkLinear, Linear.wfb, List.all_eq_true, List.mem_replicate, h]

lemma mkHiddenLayers_shapes : ∀ (ms : List Linear) (i : Nat),
    (∀ l ∈ ms, l.wfb = true) →
    chainb i ms = true →
    List.Forall₂ shapesAgree
      (mkHiddenLayers i (ms.map (fun l => l.out_features))) ms
  | [], _, _, _ => List.Forall₂.nil
  | g :: gs, i, hall, hchain => by
      have hg : g.wfb = true := hall g (by simp)
      have hc : g.in_features = i ∧ chainb g.out_features gs = true := by
        simpa [chainb] using hchain
      have hshape := shape_of_wfb g hg
      have hpos := (wfb_spec g hg).2.2.2
      refine List.Forall₂.cons ?_ ?_
      · constructor
        · rw [(shape_of_wfb (mkLinear i g.out_features) (mkLinear_wfb i g.out_features hpos)).1,
            hshape.1, hc.1]
          rfl
        · rw [(shape_of_wfb (mkLinear i g.out_features) (mkLinear_wfb i g.out_features hpos)).2,
            hshape.2]
          rfl
      · exact mkHiddenLayers_shapes gs g.out_features
          (fun l hl => hall l (by simp [hl])) hc.2

lemma hiddenEntries_forall2 {fresh ms : List Linear}
    (h : List.Forall₂ shapesAgree fresh ms) :
    ∀ k, List.Forall₂ entriesAgree (hiddenEntries k fresh) (hiddenEntries k ms) := by
  induction h with
  | nil => exact fun k => List.Forall₂.nil
  | cons hfg hrest ih =>
      intro k
      exact List.Forall₂.cons ⟨rfl, hfg.1⟩
        (List.Forall₂.cons ⟨rfl, hfg.2⟩ (ih (k + 1)))

lemma forall2_keys {e s : List (SKey × TVal)}
    (h : List.Forall₂ entriesAgree e s) :
    e.map Prod.fst = s.map Prod.fst := by
  induction h with
  | nil => rfl
  | cons hfg hrest ih => simp only [List.map_cons, ih, hfg.1]

lemma hiddenEntries_keys_mem : ∀ (ls : List Linear) (k : Nat) (key : SKey),
    key ∈ (hiddenEntries k ls).map Prod.fst →
    ∃ j, k ≤ j ∧ (key = .hiddenWeight j ∨ key = .hiddenBias j)
  | [], _, _, h => by simp [hiddenEntries] at h
  | l :: rest, k, key, h => by
      simp only [hiddenEntries, List.map_cons, List.mem_cons] at h
      rcases h with h | h | h
      · exact ⟨k, le_refl k, Or.inl h⟩
      · exact ⟨k, le_refl k, Or.inr h⟩
      · obtain ⟨j, hj, hk⟩ := hiddenEntries_keys_mem rest (k + 1) key h
        exact ⟨j, by omega, hk⟩

lemma hiddenEntries_keys_nodup : ∀ (ls : List Linear) (k : Nat),
    ((hiddenEntries k ls).map Prod.fst).Nodup
  | [], _ => List.nodup_nil
  | l :: rest, k => by
      simp only [hiddenEntries, List.map_cons, List.nodup_cons, List.mem_cons]
      refine ⟨?_, ?_, hiddenEntries_keys_nodup rest (k + 1)⟩
      · rintro (h | h)
        · cases h
        · obtain ⟨j, hj, hk | hk⟩ := hiddenEntries_keys_mem rest (k + 1) _ h
          · have : k = j := by injection hk
            omega
          · cases hk
      · intro h
        obtain ⟨j, hj, hk | hk⟩ := hiddenEntries_keys_mem rest (k + 1) _ h
        · cases hk
        · have : k = j := by injection hk
          omega

lemma state_dict_keys_nodup (m : Network) :
    (m.state_dict.map Prod.fst).Nodup := by
  unfold Network.state_dict
  rw [List.map_append, List.nodup_append]
  refine ⟨hiddenEntries_keys_nodup m.hidden_layers 0, by simp, ?_⟩
  intro key hk1 hk2
  obtain ⟨j, _, h | h⟩ := hiddenEntries_keys_mem m.hidden_layers 0 key hk1 <;>
    (rw [h] at hk2; simp at hk2)

lemma no_mismatch_of_sig : ∀ (e s : List (SKey × TVal)),
    List.Forall₂ entriesAgree e s → (e.map Prod.fst).Nodup →
    ∀ kt ∈ e,
      (match lookupT s kt.1 with
        | some t => decide (t.shape ≠ kt.2.shape)
        | none => false) = false
  | _, _, List.Forall₂.nil, _, kt, hkt => by simp at hkt
  | _, _, @List.Forall₂.cons _ _ _ e1 s1 es ss hes hrest, hnd, kt, hkt => by
      rcases List.mem_cons.1 hkt with rfl | hmem
      · rw [lookupT, if_pos hes.1.symm]
        simp [hes.2]
      · have hne : s1.1 ≠ kt.1 := by
          rw [← hes.1]
          intro h
          have : kt.1 ∈ es.map Prod.fst := List.mem_map_of_mem Prod.fst hmem
          rw [← h] at this
          exact (List.nodup_cons.1 (by simpa using hnd)).1 this
        rw [lookupT, if_neg hne]
        exact no_mismatch_of_sig es ss hrest
          (List.nodup_cons.1 (by simpa using hnd)).2 kt hmem

lemma network_wfb_spec (m : Network) (h : m.wfb = true) :
    m.hidden_layers ≠ [] ∧ (∀ l ∈ m.hidden_layers, l.wfb = true) ∧
      chainb m.input_size m.hidden_layers = true ∧ m.output.wfb = true ∧
      m.output.in_features =
        (m.hidden_layers.map (fun l => l.out_features)).getLastD m.input_size ∧
      m.output.out_features = m.output_size := by
  rw [Network.wfb] at h
  simp only [Bool.and_eq_true, beq_iff_eq, Bool.not_eq_true',
    List.isEmpty_eq_false, List.all_eq_true] at h
  obtain ⟨⟨⟨⟨⟨h1, h2⟩, h3⟩, h4⟩, h5⟩, h6⟩ := h
  exact ⟨h1, h2, h3, h4, h5, h6⟩

lemma missingKeys_nil (target m : Network)
    (hk : target.state_dict.map Prod.fst = m.state_dict.map Prod.fst) :
    missingKeys target m.state_dict = [] := by
  unfold missingKeys
  rw [hk]
  exact filter_not_mem_self _

lemma unexpectedKeys_nil (target m : Network)
    (hk : target.state_dict.map Prod.fst = m.state_dict.map Prod.fst) :
    unexpectedKeys target m.state_dict = [] := by
  unfold unexpectedKeys
  rw [hk]
  exact filter_not_mem_self _

lemma mismatchedShapes_nil (target m : Network)
    (hsig : List.Forall₂ entriesAgree target.state_dict m.state_dict) :
    mismatchedShapes target m.state_dict = [] := by
  unfold mismatchedShapes
  rw [List.map_eq_nil_iff, List.filter_eq_nil_iff]
  intro kt hkt
  rw [no_mismatch_of_sig target.state_dict m.state_dict hsig
    (state_dict_keys_nodup target) kt hkt]
  simp

lemma roundtrip_master (m : Network) (h : m.wfb = true) :
    missingKeys
        (Network.build m.input_size m.output_size
          (m.hidden_layers.map (fun l => l.out_features))) m.state_dict = [] ∧
      unexpectedKeys
        (Network.build m.input_size m.output_size
          (m.hidden_layers.map (fun l => l.out_features))) m.state_dict = [] ∧
      mismatchedShapes
        (Network.build m.input_size m.output_size
          (m.hidden_layers.map (fun l => l.out_features))) m.state_dict = [] ∧
      ∃ m2,
        (Network.build m.input_size m.output_size
            (m.hidden_layers.map (fun l => l.out_features))).load_state_dict
          m.state_dict = .ok m2 ∧
        m2.input_size = m.input_size ∧ m2.output_size = m.output_size ∧
        m2.hidden_layers.map (fun l => l.out_features) =
          m.hidden_layers.map (fun l => l.out_features) ∧
        m2.state_dict = m.state_dict := by
  obtain ⟨hne, hall, hchain, howfb, hoin, hoout⟩ := network_wfb_spec m h
  have htF : (Network.build m.input_size m.output_size
      (m.hidden_layers.map (fun l => l.out_features))).hidden_layers =
      mkHiddenLayers m.input_size (m.hidden_layers.map (fun l => l.out_features)) := rfl
  have hlenF : (Network.build m.input_size m.output_size
      (m.hidden_layers.map (fun l => l.out_features))).hidden_layers.length =
      m.hidden_layers.length := by
    rw [htF, mkHiddenLayers_length, List.length_map]
  have hF2 : List.Forall₂ shapesAgree
      (Network.build m.input_size m.output_size
        (m.hidden_layers.map (fun l => l.out_features))).hidden_layers
      m.hidden_layers := by
    rw [htF]
    exact mkHiddenLayers_shapes m.hidden_layers m.input_size hall hchain
  have hopos : 0 < m.output_size := by
    have := (wfb_spec m.output howfb).2.2.2
    omega
  have hto : (Network.build m.input_size m.output_size
      (m.hidden_layers.map (fun l => l.out_features))).output =
      mkLinear ((m.hidden_layers.map (fun l => l.out_features)).getLastD
        m.input_size) m.output_size := rfl
  have houtshape : shapesAgree
      (Network.build m.input_size m.output_size
        (m.hidden_layers.map (fun l => l.out_features))).output m.output := by
    rw [hto]
    constructor
    · rw [(shape_of_wfb _ (mkLinear_wfb
          ((m.hidden_layers.map (fun l => l.out_features)).getLastD m.input_size)
          m.output_size hopos)).1, (shape_of_wfb m.output howfb).1]
      rw [hoin, hoout]
      rfl
    · rw [(shape_of_wfb _ (mkLinear_wfb
          ((m.hidden_layers.map (fun l => l.out_features)).getLastD m.input_size)
          m.output_size hopos)).2, (shape_of_wfb m.output howfb).2]
      rw [hoout]
      rfl
  have hsig : List.Forall₂ entriesAgree
      (Network.build m.input_size m.output_size
        (m.hidden_layers.map (fun l => l.out_features))).state_dict
      m.state_dict := by
    unfold Network.state_dict
    refine List.rel_append (hiddenEntries_forall2 hF2 0) ?_
    exact List.Forall₂.cons ⟨rfl, houtshape.1⟩
      (List.Forall₂.cons ⟨rfl, houtshape.2⟩ List.Forall₂.nil)
  have hkeys := forall2_keys hsig
  have hmiss := missingKeys_nil _ m hkeys
  have hunexp := unexpectedKeys_nil _ m hkeys
  have hmism := mismatchedShapes_nil _ m hsig
  refine ⟨hmiss, hunexp, hmism, ?_⟩
  have hLH : loadHiddenLayers m.state_dict 0
      (Network.build m.input_size m.output_size
        (m.hidden_layers.map (fun l => l.out_features))).hidden_layers =
      List.zipWith (fun f g => { f with weight := g.weight, bias := g.bias })
        (Network.build m.input_size m.output_size
          (m.hidden_layers.map (fun l => l.out_features))).hidden_layers
        m.hidden_layers := by
    refine loadHiddenLayers_spec m.state_dict _ m.hidden_layers 0 hlenF
      (fun j hj => ?_) (fun j hj => ?_)
    · rw [Nat.zero_add]
      exact lookup_state_dict_hw m j hj
    · rw [Nat.zero_add]
      exact lookup_state_dict_hb m j hj
  have hload : (Network.build m.input_size m.output_size
      (m.hidden_layers.map (fun l => l.out_features))).load_state_dict
      m.state_dict = .ok
        { input_size := m.input_size, output_size := m.output_size,
          hidden_layers :=
            List.zipWith
              (fun f g => { f with weight := g.weight, bias := g.bias })
              (Network.build m.input_size m.output_size
                (m.hidden_layers.map (fun l => l.out_features))).hidden_layers
              m.hidden_layers,
          output :=
            { (Network.build m.input_size m.output_size
                (m.hidden_layers.map (fun l => l.out_features))).output with
              weight := m.output.weight, bias := m.output.bias } } := by
    unfold Network.load_state_dict
    rw [if_pos ⟨hmiss, hunexp, hmism⟩, hLH, lookup_state_dict_ow m,
      lookup_state_dict_ob m]
    rfl
  refine ⟨_, hload, rfl, rfl, ?_, ?_⟩
  · show (List.zipWith (fun f g => { f with weight := g.weight, bias := g.bias })
        (Network.build m.input_size m.output_size
          (m.hidden_layers.map (fun l => l.out_features))).hidden_layers
        m.hidden_layers).map (fun l => l.out_features) =
      m.hidden_layers.map (fun l => l.out_features)
    rw [copy_map_out _ _ hlenF, htF, mkHiddenLayers_out]
  · show hiddenEntries 0
        (List.zipWith (fun f g => { f with weight := g.weight, bias := g.bias })
          (Network.build m.input_size m.output_size
            (m.hidden_layers.map (fun l => l.out_features))).hidden_layers
          m.hidden_layers) ++
        [(.outputWeight, .v2 m.output.weight),
          (.outputBias, .v1 m.output.bias)] =
      Network.state_dict m
    rw [hiddenEntries_copy _ _ 0 hlenF]
    rfl

lemma exists_error_of_isOk_false (x : Except String Network)
    (h : x.isOk = false) : ∃ e, x = .error e := by
  cases x with
  | ok v => simp [Except.isOk, Except.toBool] at h
  | error e => exact ⟨e, rfl⟩

lemma exists_ok_of_isOk_true (x : Except String Network)
    (h : x.isOk = true) : ∃ m2, x = .ok m2 := by
  cases x with
  | ok v => exact ⟨v, rfl⟩
  | error e => simp [Except.isOk, Except.toBool] at h

/-- C1: checkpoint save/load round-trips — for every network shaped as
`fc_model.Network(input_size, output_size, hidden_layers)` (captured by
`Network.wfb`), saving the checkpoint dictionary with the keys
`input_size`, `output_size`, `hidden_layers` and the model's `state_dict`,
then calling `load_checkpoint` on it, succeeds and returns a model with the
same input size, output size and hidden-layer sizes, and with parameter
tensors identical to the saved model's. -/
theorem c1_checkpoint_roundtrip (m : Network) (h : m.wfb = true) :
    ∃ m2, load_checkpoint (saveCheckpoint m) = .ok m2 ∧
      m2.input_size = m.input_size ∧ m2.output_size = m.output_size ∧
      m2.hidden_layers.map (fun l => l.out_features) =
        m.hidden_layers.map (fun l => l.out_features) ∧
      m2.state_dict = m.state_dict := by
  obtain ⟨-, -, -, m2, hld, h1, h2, h3, h4⟩ := roundtrip_master m h
  exact ⟨m2, hld, h1, h2, h3, h4⟩

/-- Witness for C1: the round trip on a concrete `Network.build 3 2 [2]`. -/
theorem c1_checkpoint_roundtrip_witness :
    (Network.build 3 2 [2]).wfb = true ∧
      ∃ m2, load_checkpoint (saveCheckpoint (Network.build 3 2 [2])) = .ok m2 ∧
        m2.input_size = (Network.build 3 2 [2]).input_size ∧
        m2.output_size = (Network.build 3 2 [2]).output_size ∧
        m2.hidden_layers.map (fun l => l.out_features) =
          (Network.build 3 2 [2]).hidden_layers.map (fun l => l.out_features) ∧
        m2.state_dict = (Network.build 3 2 [2]).state_dict :=
  ⟨by decide, c1_checkpoint_roundtrip (Network.build 3 2 [2]) (by decide)⟩

set_option maxRecDepth 40000 in
/-- C2: `load_state_dict` fails exactly when the model's parameters do not
match the state dict (missing keys, unexpected keys, or recorded tensor
shapes differing from the model's parameter shapes), and this is the only
error path.  Loading a checkpoint saved from hidden layers
`[512, 256, 128]` into a `Network` with hidden layers `[400, 200, 100]`
raises a `RuntimeError`, while loading it into a model with matching layer
shapes succeeds with no missing keys and no unexpected keys. -/
theorem c2_load_state_dict_shape_mismatch :
    (∀ (m : Network) (sd : List (SKey × TVal)),
        (∃ e, m.load_state_dict sd = .error e) ↔
          ¬(missingKeys m sd = [] ∧ unexpectedKeys m sd = [] ∧
            mismatchedShapes m sd = [])) ∧
      (∃ e, (Network.build 784 10 [400, 200, 100]).load_state_dict
          (Network.build 784 10 [512, 256, 128]).state_dict = .error e) ∧
      missingKeys (Network.build 784 10 [512, 256, 128])
        (Network.build 784 10 [512, 256, 128]).state_dict = [] ∧
      unexpectedKeys (Network.build 784 10 [512, 256, 128])
        (Network.build 784 10 [512, 256, 128]).state_dict = [] ∧
      ∃ m2, (Network.build 784 10 [512, 256, 128]).load_state_dict
          (Network.build 784 10 [512, 256, 128]).state_dict = .ok m2 := by
  refine ⟨?_, ?_, by decide, by decide, ?_⟩
  · intro m sd
    unfold Network.load_state_dict
    by_cases hc : missingKeys m sd = [] ∧ unexpectedKeys m sd = [] ∧
      mismatchedShapes m sd = []
    · rw [if_pos hc]
      constructor
      · rintro ⟨e, he⟩
        simp at he
      · intro hn
        exact absurd hc hn
    · rw [if_neg hc]
      exact ⟨fun _ => hc, fun _ => ⟨_, rfl⟩⟩
  · exact exists_error_of_isOk_false _ (by decide)
  · exact exists_ok_of_isOk_true _ (by decide)

end DLV2
